import Mathlib

/-!
Shallow embedding of `src/lib/conversations/broadcast.js` (node-cowboy):
the broadcast request/reply conversation protocol.

Requester side: `request(name, data, options)` runs an aggregator state
machine over inbound reply frames (`ack` / `data` / `end` / unknown) and
periodic timeout ticks, until teardown.  We model the aggregator state
(`AggState`), a step function over inputs (`step`), and the observable
trace of teardown markers and emitted events (`Item`).  JS objects used
as ordered string-keyed maps (`responses`, `expecting`) are modelled as
association lists / key lists with insertion-order semantics.

Listener side: the per-request reply channel operations `_reply` and
`_end` are modelled with their closed flag, callback results, published
frames and warning logs, plus the primitive-operation order of `_end`.

The top-level control flow of `request` (empty `expect` degenerate case,
subscribe error fall-through, request publish error) is modelled by
`requestModel`.
-/

namespace Cowboy

/-- A wire frame as received on the reply channel: a `type` discriminator,
the sending `host`, and an opaque `body` (present on `data` frames). -/
structure WireMsg where
  type : String
  host : String
  body : String
deriving DecidableEq, Repr

/-- Events emitted on the requester's emitter.  The second argument of the
terminal events is `Option`al: `none` models an `emit` call that passed no
second positional argument. -/
inductive Ev where
  | ack (host : String)
  | data (host : String) (body : String)
  | hostEnd (host : String) (response : Option (List String))
  | endEv (responses : List (String × List String)) (expecting : Option (List String))
  | errorEv (message : String) (expecting : Option (List String))
deriving DecidableEq, Repr

/-- Trace items: either the body of `_tearDown` running (`td`), or an
event emission.  `td` is recorded only when the `closed` guard is passed. -/
inductive Item where
  | td
  | ev (e : Ev)
deriving DecidableEq, Repr

/-- Inputs driving the requester: an inbound frame on the reply channel at
some time (the value `Date.now()` would return), or a timeout-driver tick. -/
inductive Input where
  | frame (time : Nat) (msg : WireMsg)
  | tick (time : Nat)
deriving DecidableEq, Repr

/-- Configuration of one conversation: `start` timestamp, the two timeout
durations, and the initial `expect` host list. -/
structure Config where
  start : Nat
  connect : Nat
  idle : Nat
  expect : List String
deriving DecidableEq, Repr

/-- Requester aggregator state.  `log` is a ghost field recording the
frames that reached the frame handler body (i.e. were processed while the
conversation was not closed); it affects no control decision. -/
structure AggState where
  closed : Bool
  responses : List (String × List String)
  expecting : List String
  lastMessage : Nat
  log : List WireMsg
deriving DecidableEq, Repr

/-- JS `obj[key] = true` on an ordered string-keyed object: an existing key
keeps its position, a new key is appended. -/
def insertKey (l : List String) (h : String) : List String :=
  if h ∈ l then l else l ++ [h]

/-- JS `delete obj[key]`. -/
def removeKey (l : List String) (h : String) : List String :=
  l.filter (fun x => x != h)

/-- JS `obj[key]` on the `responses` map: `none` models `undefined`. -/
def lookupHost (r : List (String × List String)) (h : String) : Option (List String) :=
  match r.find? (fun p => p.1 == h) with
  | some p => some p.2
  | none => none

/-- JS `obj[key] = v`: update in place if present, else append. -/
def setHost (r : List (String × List String)) (h : String) (v : List String) :
    List (String × List String) :=
  if (r.find? (fun p => p.1 == h)).isSome then
    r.map (fun p => if p.1 == h then (h, v) else p)
  else r ++ [(h, v)]

/-- `_receiveAck(host)`: mark the host expected, seed `responses[host]`
with `[]` when absent (JS `if (!responses[host])`), emit `ack(host)`. -/
def _receiveAck (s : AggState) (host : String) : AggState × List Item :=
  ({ s with
      expecting := insertKey s.expecting host,
      responses :=
        match lookupHost s.responses host with
        | none => setHost s.responses host []
        | some _ => s.responses },
   [Item.ev (Ev.ack host)])

/-- `_receiveData(host, body)`: append the body to `responses[host]`
(creating it when absent), mark the host expected, emit `data(host, body)`. -/
def _receiveData (s : AggState) (host body : String) : AggState × List Item :=
  ({ s with
      responses := setHost s.responses host ((lookupHost s.responses host).getD [] ++ [body]),
      expecting := insertKey s.expecting host },
   [Item.ev (Ev.data host body)])

/-- `_receiveEnd(host)`: drop the host from `expecting`, emit
`hostEnd(host, responses[host])`; when `expecting` is now empty, run
`_tearDown` and emit `end(responses)` (no second argument). -/
def _receiveEnd (s : AggState) (host : String) : AggState × List Item :=
  let expecting2 := removeKey s.expecting host
  let hostEndItems := [Item.ev (Ev.hostEnd host (lookupHost s.responses host))]
  if expecting2.isEmpty then
    ({ s with expecting := expecting2, closed := true },
     hostEndItems ++ [Item.td, Item.ev (Ev.endEv s.responses none)])
  else
    ({ s with expecting := expecting2 }, hostEndItems)

/-- The connect-timeout reason string built by
`util.format('Did not receive a message within the connect timeout interval of %sms', connect)`. -/
def connectTimeoutMsg (c : Nat) : String :=
  "Did not receive a message within the connect timeout interval of " ++ toString c ++ "ms"

/-- The idle-timeout reason string built by
`util.format('Did not receive a message with the idle timeout interval of %sms', idle)`. -/
def idleTimeoutMsg (i : Nat) : String :=
  "Did not receive a message with the idle timeout interval of " ++ toString i ++ "ms"

/-- `_timeout(reason)`: `_tearDown`, then emit `error(new Error(reason),
keys(expecting))` when `responses` is empty, else `end(responses,
keys(expecting))`. -/
def _timeout (s : AggState) (reason : String) : AggState × List Item :=
  ({ s with closed := true },
   Item.td ::
     (if s.responses.isEmpty then [Item.ev (Ev.errorEv reason (some s.expecting))]
      else [Item.ev (Ev.endEv s.responses (some s.expecting))]))

/-- One input processed by the requester: the timeout-driver tick body
(lines 219-233 of broadcast.js) or the reply-channel data handler
(lines 248-265). -/
def step (cfg : Config) (s : AggState) : Input → AggState × List Item
  | Input.tick t =>
    if s.closed then (s, [])
    else if s.lastMessage = 0 then
      if cfg.start + cfg.connect < t then _timeout s (connectTimeoutMsg cfg.connect)
      else (s, [])
    else if s.lastMessage + cfg.idle < t then _timeout s (idleTimeoutMsg cfg.idle)
    else (s, [])
  | Input.frame t m =>
    if s.closed then (s, [])
    else
      let s1 := { s with lastMessage := t, log := s.log ++ [m] }
      if m.type = "ack" then _receiveAck s1 m.host
      else if m.type = "data" then _receiveData s1 m.host m.body
      else if m.type = "end" then _receiveEnd s1 m.host
      else (s1, [])

/-- Initial aggregator state: `expecting` is `_.invert(options.expect)`'s
key set (first occurrence kept, order preserved), `responses` empty,
`lastMessage` 0. -/
def initState (cfg : Config) : AggState :=
  { closed := false
    responses := []
    expecting := cfg.expect.foldl insertKey []
    lastMessage := 0
    log := [] }

/-- Run the aggregator from a state over a list of inputs, accumulating
the trace. -/
def runFrom (cfg : Config) (s : AggState) : List Input → AggState × List Item
  | [] => (s, [])
  | i :: rest =>
    let p := step cfg s i
    let q := runFrom cfg p.1 rest
    (q.1, p.2 ++ q.2)

/-- Run a whole conversation from the initial state. -/
def run (cfg : Config) (inputs : List Input) : AggState × List Item :=
  runFrom cfg (initState cfg) inputs

/-- Whether a trace item is the teardown marker. -/
def isTd : Item → Bool
  | Item.td => true
  | Item.ev _ => false

/-- Whether an event is terminal (`end` or `error`). -/
def isTerminalEv : Ev → Bool
  | Ev.endEv _ _ => true
  | Ev.errorEv _ _ => true
  | _ => false

/-- Whether a trace item is a terminal event emission. -/
def itemTerminal : Item → Bool
  | Item.ev e => isTerminalEv e
  | Item.td => false

/-- Number of terminal events in a trace. -/
def termCount (l : List Item) : Nat := l.countP itemTerminal

/-- Number of teardown runs in a trace. -/
def tdCount (l : List Item) : Nat := l.countP isTd

/-- The frames one input contributes to the processed log of a state. -/
def frameOf (s : AggState) : Input → List WireMsg
  | Input.frame _ m => if s.closed then [] else [m]
  | Input.tick _ => []

/-- The frames a run of inputs processes (reaches the frame handler body
with the conversation not yet closed), recomputed from the inputs. -/
def processedNew (cfg : Config) (s : AggState) : List Input → List WireMsg
  | [] => []
  | i :: rest => frameOf s i ++ processedNew cfg (step cfg s i).1 rest

/-- Characterisation of `expecting` membership: starting from the initial
membership bit, each processed frame from the host overrides it (`ack` or
`data` frames set it, `end` frames clear it, other frames leave it). -/
def expectsAfter (b : Bool) (ms : List WireMsg) (h : String) : Bool :=
  ms.foldl
    (fun acc m =>
      if m.host = h then
        if m.type = "ack" ∨ m.type = "data" then true
        else if m.type = "end" then false
        else acc
      else acc) b

/-- Whether the processed log holds an `ack` or `data` frame from `h`. -/
def addedByAckData (ms : List WireMsg) (h : String) : Bool :=
  ms.any (fun m => m.host == h && (m.type == "ack" || m.type == "data"))

/-- Whether the processed log holds an `end` frame from `h`. -/
def endProcessedFrom (ms : List WireMsg) (h : String) : Bool :=
  ms.any (fun m => m.host == h && m.type == "end")

/-- Primitive operations the listener's reply channel performs. -/
inductive LOp where
  | setClosed
  | publishFrame (m : WireMsg)
  | closeCh
deriving DecidableEq, Repr

/-- The after-end error message of `_reply`. -/
def afterEndErrorMsg : String := "Attempted to send response frame after response was ended"

/-- `_reply(replyData, callback)` given the `closed` flag and the transport
outcome of the data publish: (callback argument, published operations). -/
def _reply (closed : Bool) (host body : String) (pubErr : Option String) :
    Option String × List LOp :=
  if closed then (some afterEndErrorMsg, [])
  else (pubErr, [LOp.publishFrame ⟨"data", host, body⟩])

/-- The order of primitive operations `_end(callback)` performs: set
`closed`, publish the `end` frame, close the reply channel. -/
def _endOps (host : String) : List LOp :=
  [LOp.setClosed, LOp.publishFrame ⟨"end", host, ""⟩, LOp.closeCh]

/-- Scan an operation list checking every publish is preceded by a
`setClosed`. -/
def closedBeforePublishes : Bool → List LOp → Bool
  | _, [] => true
  | _, LOp.setClosed :: rest => closedBeforePublishes true rest
  | seen, LOp.publishFrame _ :: rest => seen && closedBeforePublishes seen rest
  | seen, LOp.closeCh :: rest => closedBeforePublishes seen rest

/-- Whether `setClosed` precedes every publish in an operation list. -/
def setClosedBeforePublishes (ops : List LOp) : Bool :=
  closedBeforePublishes false ops

/-- Warning message logged when the `end` frame publish fails. -/
def endWarnPublishMsg : String := "Failed to send \"end\" message to broadcast response"

/-- Warning message logged when the reply channel close fails. -/
def endWarnCloseMsg : String := "Failed to send close the broadcast output channel after \"end\" response"

/-- The callback argument and warning log of `_end(callback)` given the
transport outcomes of the `end` publish and the channel close: `_err` is
assigned the publish error, then overwritten by the close error. -/
def _endResult (pubErr closeErr : Option String) :
    Option String × List (String × String) :=
  let warns1 : List (String × String) :=
    match pubErr with
    | some e => [(endWarnPublishMsg, e)]
    | none => []
  match closeErr with
  | some e2 => (some e2, warns1 ++ [(endWarnCloseMsg, e2)])
  | none => (pubErr, warns1)

/-- Side-effecting actions of `request`'s setup flow. -/
inductive FlowAction where
  | subscribeReply
  | registerHandler
  | publishRequest
deriving DecidableEq, Repr

/-- Observable outcome of `request`'s setup flow: events deferred via
`process.nextTick`, the setup actions performed, the trace items emitted,
and the final `closed` flag. -/
structure RequestResult where
  deferred : List Ev
  actions : List FlowAction
  items : List Item
  closed : Bool
deriving DecidableEq, Repr

/-- The control flow of `request(name, data, options)` outside the frame
handler: the empty-`expect` degenerate case returns after deferring
`end(responses)`; otherwise the reply channel is subscribed, a subscribe
error tears down and emits `error(err)` but control falls through, the
frame handler is registered, and the request frame is published; a publish
error calls `_tearDown` whose `closed` guard suppresses any second emit. -/
def requestModel (expect : List String) (subErr pubErr : Option String) : RequestResult :=
  if expect.isEmpty then
    { deferred := [Ev.endEv [] none], actions := [], items := [], closed := false }
  else
    let p : Bool × List Item :=
      match subErr with
      | some e => (true, [Item.td, Item.ev (Ev.errorEv e none)])
      | none => (false, [])
    let items2 : List Item :=
      match pubErr with
      | some e => if p.1 then [] else [Item.td, Item.ev (Ev.errorEv e none)]
      | none => []
    { deferred := []
      actions := [FlowAction.subscribeReply, FlowAction.registerHandler, FlowAction.publishRequest]
      items := p.2 ++ items2
      closed := p.1 || pubErr.isSome }

/-- Conversation configuration for the ack-end-ack scenario. -/
def cfg8 : Config := ⟨0, 5000, 5000, ["h", "k"]⟩

/-- Inbound frames for the ack-end-ack scenario: host `h` acks, ends, then
acks again while host `k` keeps the conversation open. -/
def inputs8 : List Input :=
  [Input.frame 1 ⟨"ack", "h", ""⟩, Input.frame 2 ⟨"end", "h", ""⟩,
   Input.frame 3 ⟨"ack", "h", ""⟩]

/-- Claim C7: the listener's `end()` sets the reply channel's `closed` flag
before attempting any publish (it is the first primitive operation, ahead
of both the `end`-frame publish and the channel close), and every
`reply(body, callback)` made while `closed` is true fails through the
callback with the after-end error and publishes no data frame. -/
theorem reply_after_end_rejected_and_close_first :
    (∀ (host body : String) (pubErr : Option String),
      _reply true host body pubErr = (some afterEndErrorMsg, []))
  ∧ (∀ host : String, setClosedBeforePublishes (_endOps host) = true)
  ∧ (∀ host : String, (_endOps host).head? = some LOp.setClosed) :=
  ⟨fun _ _ _ => rfl, fun _ => rfl, fun _ => rfl⟩

/-- Claim C2 counterexample: when both the end-frame publish and the
reply-channel close fail, the callback receives the close error, not the
publish error the claim names as "the first error encountered". -/
theorem end_callback_error_counterexample :
    (_endResult (some "publish-failure") (some "close-failure")).1 = some "close-failure"
  ∧ (_endResult (some "publish-failure") (some "close-failure")).1 ≠ some "publish-failure" :=
  ⟨rfl, by decide⟩

/-- Claim C2 (amended): when both the end-frame publish and the
reply-channel close report errors, the callback receives the last error
encountered, i.e. the close error, and both errors are logged as
warnings. -/
theorem end_callback_receives_close_error (p c : String) :
    _endResult (some p) (some c) =
      (some c, [(endWarnPublishMsg, p), (endWarnCloseMsg, c)]) := rfl

/-- Claim C3 counterexample: with an empty expect set the deferred `end`
emission carries only the empty responses map and no second argument,
which differs from the two-argument `end({}, [])` the claim states. -/
theorem empty_expect_end_counterexample :
    (requestModel [] none none).deferred = [Ev.endEv [] none]
  ∧ Ev.endEv [] none ≠ Ev.endEv ([] : List (String × List String)) (some []) :=
  ⟨rfl, by decide⟩

/-- Claim C3 (amended): for every `request` call with an empty expect set,
the conversation emits `end({})` asynchronously (deferred, not inline with
the call) with the empty responses map as its only argument — the
expecting-list argument is omitted — and performs no subscribe and no
publish. -/
theorem empty_expect_deferred_end (subErr pubErr : Option String) :
    requestModel [] subErr pubErr =
      { deferred := [Ev.endEv [] none], actions := [], items := [], closed := false } := rfl

/-- Claim C4 counterexample: on a fatal subscribe failure the emitted
error event carries only the error and no expecting-list argument,
contradicting the claimed two-argument `error(err, expecting)`. -/
theorem fatal_error_args_counterexample :
    (requestModel ["h"] (some "subscribe-failure") none).items =
      [Item.td, Item.ev (Ev.errorEv "subscribe-failure" none)]
  ∧ Ev.errorEv "subscribe-failure" none ≠ Ev.errorEv "subscribe-failure" (some ["h"]) :=
  ⟨rfl, by decide⟩

/-- Claim C4 (amended): whenever the requester terminates because of a
fatal subscribe failure or a fatal request-publish failure, the emitted
error event carries only one argument, the error; the still-expected
hostnames are not passed on these paths (only the timeout path passes
them). -/
theorem fatal_error_single_argument (x : String) (expect : List String) (e : String)
    (pubErr : Option String) :
    (requestModel (x :: expect) (some e) pubErr).items = [Item.td, Item.ev (Ev.errorEv e none)]
  ∧ (requestModel (x :: expect) none (some e)).items = [Item.td, Item.ev (Ev.errorEv e none)] := by
  constructor
  · cases pubErr <;> rfl
  · rfl

/-- Claim C9: when the reply-channel subscribe reports an error while the
conversation is not yet closed, `request` tears down and emits `error`,
but control falls through: the inbound frame handler is still registered
and the request frame is still published; whatever the publish outcome,
no second teardown marker and no second terminal event appear, because
teardown already marked the conversation closed. -/
theorem subscribe_error_fall_through (x : String) (expect : List String) (e : String)
    (pubErr : Option String) :
    (requestModel (x :: expect) (some e) pubErr).actions =
      [FlowAction.subscribeReply, FlowAction.registerHandler, FlowAction.publishRequest]
  ∧ (requestModel (x :: expect) (some e) pubErr).items =
      [Item.td, Item.ev (Ev.errorEv e none)]
  ∧ termCount (requestModel (x :: expect) (some e) pubErr).items = 1
  ∧ (requestModel (x :: expect) (some e) pubErr).closed = true := by
  refine ⟨?_, ?_, ?_, ?_⟩ <;> cases pubErr <;> rfl

/-- Claim C5: for every timeout firing, the choice of terminal event
depends only on whether `responses` is empty — empty emits `error` with
the expecting keys as second argument, non-empty emits
`end(responses, keys(expecting))` independently of the reason text — and
the connect-vs-idle distinction only selects the reason string passed to
`_timeout`. -/
theorem timeout_branch_on_responses (cfg : Config) (s : AggState) (t : Nat) (r₁ r₂ : String) :
    (s.responses.isEmpty = true →
      (_timeout s r₁).2 = [Item.td, Item.ev (Ev.errorEv r₁ (some s.expecting))])
  ∧ (s.responses.isEmpty = false →
      (_timeout s r₁).2 = [Item.td, Item.ev (Ev.endEv s.responses (some s.expecting))]
      ∧ (_timeout s r₁).2 = (_timeout s r₂).2)
  ∧ (s.closed = false → s.lastMessage = 0 → cfg.start + cfg.connect < t →
      step cfg s (Input.tick t) = _timeout s (connectTimeoutMsg cfg.connect))
  ∧ (s.closed = false → s.lastMessage ≠ 0 → s.lastMessage + cfg.idle < t →
      step cfg s (Input.tick t) = _timeout s (idleTimeoutMsg cfg.idle)) := by
  refine ⟨?_, ?_, ?_, ?_⟩
  · intro h; simp [_timeout, h]
  · intro h; simp [_timeout, h]
  · intro hc hl ht; simp [step, hc, hl, ht]
  · intro hc hl ht; simp [step, hc, hl, ht]

/-- Claim C5 witness: concrete timeout firings with empty and non-empty
responses, and a concrete connect-timeout tick. -/
theorem timeout_branch_on_responses_witness :
    (_timeout ⟨false, [("h", ["x"])], ["h"], 4, []⟩ "r").2 =
      [Item.td, Item.ev (Ev.endEv [("h", ["x"])] (some ["h"]))]
  ∧ (_timeout ⟨false, [], ["h"], 0, []⟩ "r").2 =
      [Item.td, Item.ev (Ev.errorEv "r" (some ["h"]))]
  ∧ step ⟨0, 10, 10, ["h"]⟩ ⟨false, [], ["h"], 0, []⟩ (Input.tick 11) =
      _timeout ⟨false, [], ["h"], 0, []⟩ (connectTimeoutMsg 10) :=
  ⟨((timeout_branch_on_responses ⟨0, 10, 10, ["h"]⟩ ⟨false, [("h", ["x"])], ["h"], 4, []⟩ 0
      "r" "r").2.1 (by decide)).1,
   (timeout_branch_on_responses ⟨0, 10, 10, ["h"]⟩ ⟨false, [], ["h"], 0, []⟩ 0
      "r" "r").1 (by decide),
   (timeout_branch_on_responses ⟨0, 10, 10, ["h"]⟩ ⟨false, [], ["h"], 0, []⟩ 11
      "r" "r").2.2.1 rfl rfl (by decide)⟩

/-- Claim C6: a connect timeout with empty responses emits the error whose
message is exactly the connect text (with the word "within"), and an idle
timeout with empty responses emits the error whose message is exactly the
idle text (with the word "with"), each ending in the configured duration
followed by "ms". -/
theorem timeout_message_text (cfg : Config) (s : AggState) (t : Nat) :
    (s.closed = false → s.lastMessage = 0 → cfg.start + cfg.connect < t → s.responses = [] →
      (step cfg s (Input.tick t)).2 =
        [Item.td, Item.ev (Ev.errorEv
          ("Did not receive a message within the connect timeout interval of "
            ++ toString cfg.connect ++ "ms") (some s.expecting))])
  ∧ (s.closed = false → s.lastMessage ≠ 0 → s.lastMessage + cfg.idle < t → s.responses = [] →
      (step cfg s (Input.tick t)).2 =
        [Item.td, Item.ev (Ev.errorEv
          ("Did not receive a message with the idle timeout interval of "
            ++ toString cfg.idle ++ "ms") (some s.expecting))]) := by
  constructor
  · intro hc hl ht hr
    simp [step, hc, hl, ht, _timeout, hr, connectTimeoutMsg]
  · intro hc hl ht hr
    simp [step, hc, hl, ht, _timeout, hr, idleTimeoutMsg]

/-- Claim C6 witness: the two timeout messages evaluated at a concrete
configuration. -/
theorem timeout_message_text_witness :
    (step ⟨0, 10, 99, ["h"]⟩ ⟨false, [], ["h"], 0, []⟩ (Input.tick 11)).2 =
      [Item.td, Item.ev (Ev.errorEv
        "Did not receive a message within the connect timeout interval of 10ms" (some ["h"]))]
  ∧ (step ⟨0, 99, 10, ["h"]⟩ ⟨false, [], ["h"], 5, []⟩ (Input.tick 16)).2 =
      [Item.td, Item.ev (Ev.errorEv
        "Did not receive a message with the idle timeout interval of 10ms" (some ["h"]))] := by
  constructor
  · rw [(timeout_message_text ⟨0, 10, 99, ["h"]⟩ ⟨false, [], ["h"], 0, []⟩ 11).1
      rfl rfl (by decide) rfl]
    decide
  · rw [(timeout_message_text ⟨0, 99, 10, ["h"]⟩ ⟨false, [], ["h"], 5, []⟩ 16).2
      rfl (by decide) (by decide) rfl]
    decide

/-- Claim C10: every inbound frame processed while the conversation is not
closed updates `lastMessage` to the frame's arrival time, and a frame with
an unknown type leaves `responses`, `expecting` and `closed` unchanged and
emits no event. -/
theorem inbound_frame_updates_lastMessage (cfg : Config) (s : AggState) (t : Nat) (m : WireMsg)
    (h : s.closed = false) :
    ((step cfg s (Input.frame t m)).1.lastMessage = t)
  ∧ (m.type ≠ "ack" → m.type ≠ "data" → m.type ≠ "end" →
      (step cfg s (Input.frame t m)).1.responses = s.responses
      ∧ (step cfg s (Input.frame t m)).1.expecting = s.expecting
      ∧ (step cfg s (Input.frame t m)).1.closed = false
      ∧ (step cfg s (Input.frame t m)).2 = []) := by
  constructor
  · simp only [step, h, Bool.false_eq_true, if_false]
    split_ifs <;>
      simp [_receiveAck, _receiveData, _receiveEnd, apply_ite]
  · intro ha hd he
    simp [step, h, ha, hd, he]

/-- Claim C10 witness: a frame of unknown type at a concrete state updates
`lastMessage` only and emits nothing. -/
theorem inbound_frame_updates_lastMessage_witness :
    (step ⟨0, 5, 5, ["h"]⟩ ⟨false, [], ["h"], 0, []⟩
        (Input.frame 7 ⟨"bogus", "h", ""⟩)).1.lastMessage = 7
  ∧ (step ⟨0, 5, 5, ["h"]⟩ ⟨false, [], ["h"], 0, []⟩
        (Input.frame 7 ⟨"bogus", "h", ""⟩)).2 = [] := by
  have H := inbound_frame_updates_lastMessage ⟨0, 5, 5, ["h"]⟩ ⟨false, [], ["h"], 0, []⟩ 7
    ⟨"bogus", "h", ""⟩ rfl
  exact ⟨H.1, (H.2 (by decide) (by decide) (by decide)).2.2.2⟩

theorem step_closed_noop (cfg : Config) (s : AggState) (i : Input) (h : s.closed = true) :
    step cfg s i = (s, []) := by
  cases i <;> simp [step, h]

theorem runFrom_closed (cfg : Config) (inputs : List Input) : ∀ s : AggState, s.closed = true →
    runFrom cfg s inputs = (s, []) := by
  induction inputs with
  | nil => intro s _; rfl
  | cons i rest ih =>
    intro s h
    simp [runFrom, step_closed_noop cfg s i h, ih s h]

theorem step_frame_lastMessage (cfg : Config) (s : AggState) (t : Nat) (m : WireMsg)
    (h : s.closed = false) : (step cfg s (Input.frame t m)).1.lastMessage = t := by
  simp only [step, h, Bool.false_eq_true, if_false]
  split_ifs <;> simp [_receiveAck, _receiveData, _receiveEnd, apply_ite]

theorem step_tick_fst (cfg : Config) (s : AggState) (t : Nat) :
    (step cfg s (Input.tick t)).1.expecting = s.expecting
  ∧ (step cfg s (Input.tick t)).1.log = s.log
  ∧ (step cfg s (Input.tick t)).1.lastMessage = s.lastMessage := by
  refine ⟨?_, ?_, ?_⟩ <;> (simp only [step, _timeout]; split_ifs <;> rfl)

theorem counts_append_pair (pre : List Item) (t : Ev) (h : isTerminalEv t = true) :
    termCount (pre ++ [Item.td, Item.ev t]) = termCount pre + 1
  ∧ tdCount (pre ++ [Item.td, Item.ev t]) = tdCount pre + 1 := by
  constructor <;>
    simp [termCount, tdCount, List.countP_append, List.countP_cons, itemTerminal, isTd, h]


theorem step_shape (cfg : Config) (s : AggState) (i : Input) (h : s.closed = false) :
    ((step cfg s i).1.closed = false
      ∧ termCount (step cfg s i).2 = 0 ∧ tdCount (step cfg s i).2 = 0)
  ∨ ((step cfg s i).1.closed = true
      ∧ ∃ pre t, (step cfg s i).2 = pre ++ [Item.td, Item.ev t]
          ∧ isTerminalEv t = true ∧ termCount pre = 0 ∧ tdCount pre = 0) := by
  cases i with
  | tick t =>
    simp only [step, h, Bool.false_eq_true, if_false]
    split_ifs with h1 h2 h3
    · by_cases hr : s.responses.isEmpty
      · right
        refine ⟨by simp [_timeout], [], Ev.errorEv (connectTimeoutMsg cfg.connect) (some s.expecting), ?_, rfl, rfl, rfl⟩
        simp [_timeout, hr]
      · right
        refine ⟨by simp [_timeout], [], Ev.endEv s.responses (some s.expecting), ?_, rfl, rfl, rfl⟩
        simp [_timeout, hr]
    · left; exact ⟨h, rfl, rfl⟩
    · by_cases hr : s.responses.isEmpty
      · right
        refine ⟨by simp [_timeout], [], Ev.errorEv (idleTimeoutMsg cfg.idle) (some s.expecting), ?_, rfl, rfl, rfl⟩
        simp [_timeout, hr]
      · right
        refine ⟨by simp [_timeout], [], Ev.endEv s.responses (some s.expecting), ?_, rfl, rfl, rfl⟩
        simp [_timeout, hr]
    · left; exact ⟨h, rfl, rfl⟩
  | frame t m =>
    simp only [step, h, Bool.false_eq_true, if_false]
    split_ifs with h1 h2 h3
    · left
      refine ⟨by simp [_receiveAck, h], ?_, ?_⟩ <;>
        simp [_receiveAck, termCount, tdCount, List.countP_cons, itemTerminal, isTd, isTerminalEv]
    · left
      refine ⟨by simp [_receiveData, h], ?_, ?_⟩ <;>
        simp [_receiveData, termCount, tdCount, List.countP_cons, itemTerminal, isTd, isTerminalEv]
    · by_cases he : (removeKey s.expecting m.host).isEmpty
      · right
        constructor
        · simp [_receiveEnd, he]
        · refine ⟨[Item.ev (Ev.hostEnd m.host (lookupHost s.responses m.host))],
            Ev.endEv s.responses none, ?_, rfl, ?_, ?_⟩ <;>
            simp [_receiveEnd, he, termCount, tdCount, List.countP_cons, itemTerminal, isTd, isTerminalEv]
      · left
        refine ⟨by simp [_receiveEnd, he, h], ?_, ?_⟩ <;>
          simp [_receiveEnd, he, termCount, tdCount, List.countP_cons, itemTerminal, isTd, isTerminalEv]
    · left; exact ⟨rfl, rfl, rfl⟩

theorem termCount_append (a b : List Item) :
    termCount (a ++ b) = termCount a + termCount b := by
  simp [termCount, List.countP_append]

theorem tdCount_append (a b : List Item) :
    tdCount (a ++ b) = tdCount a + tdCount b := by
  simp [tdCount, List.countP_append]

theorem runFrom_shape (cfg : Config) (inputs : List Input) : ∀ s : AggState, s.closed = false →
    (((runFrom cfg s inputs).1.closed = false
        ∧ termCount (runFrom cfg s inputs).2 = 0 ∧ tdCount (runFrom cfg s inputs).2 = 0)
   ∨ ((runFrom cfg s inputs).1.closed = true
        ∧ ∃ pre t, (runFrom cfg s inputs).2 = pre ++ [Item.td, Item.ev t]
            ∧ isTerminalEv t = true ∧ termCount pre = 0 ∧ tdCount pre = 0)) := by
  induction inputs with
  | nil => intro s h; left; exact ⟨h, rfl, rfl⟩
  | cons i rest ih =>
    intro s h
    have hrw1 : (runFrom cfg s (i :: rest)).1 = (runFrom cfg (step cfg s i).1 rest).1 := rfl
    have hrw2 : (runFrom cfg s (i :: rest)).2 =
        (step cfg s i).2 ++ (runFrom cfg (step cfg s i).1 rest).2 := rfl
    rcases step_shape cfg s i h with ⟨hc, ht, hd⟩ | ⟨hc, pre, t0, heq, hterm, hp1, hp2⟩
    · rcases ih (step cfg s i).1 hc with ⟨hc2, ht2, hd2⟩ | ⟨hc2, pre2, t2, heq2, hterm2, hp21, hp22⟩
      · left
        rw [hrw1, hrw2]
        exact ⟨hc2, by rw [termCount_append, ht, ht2], by rw [tdCount_append, hd, hd2]⟩
      · right
        rw [hrw1, hrw2]
        exact ⟨hc2, (step cfg s i).2 ++ pre2, t2, by rw [heq2, List.append_assoc], hterm2,
          by rw [termCount_append, ht, hp21], by rw [tdCount_append, hd, hp22]⟩
    · have hq := runFrom_closed cfg rest (step cfg s i).1 hc
      right
      rw [hrw1, hrw2, hq]
      exact ⟨hc, pre, t0, by rw [heq]; simp, hterm, hp1, hp2⟩

theorem runFrom_lastMessage (cfg : Config) (inputs : List Input) : ∀ s : AggState,
    (runFrom cfg s inputs).1.lastMessage = s.lastMessage
  ∨ ∃ t m, Input.frame t m ∈ inputs ∧ (runFrom cfg s inputs).1.lastMessage = t := by
  induction inputs with
  | nil => intro s; left; rfl
  | cons i rest ih =>
    intro s
    have hrw1 : (runFrom cfg s (i :: rest)).1 = (runFrom cfg (step cfg s i).1 rest).1 := rfl
    have hstep : (step cfg s i).1.lastMessage = s.lastMessage
        ∨ ∃ t m, i = Input.frame t m ∧ (step cfg s i).1.lastMessage = t := by
      cases i with
      | tick t => exact Or.inl (step_tick_fst cfg s t).2.2
      | frame t m =>
        by_cases hc : s.closed
        · left; rw [step_closed_noop cfg s _ hc]
        · right
          exact ⟨t, m, rfl, step_frame_lastMessage cfg s t m (by simpa using hc)⟩
    rw [hrw1]
    rcases ih (step cfg s i).1 with h1 | ⟨t, m, hm, he⟩
    · rcases hstep with h2 | ⟨t, m, hi, he⟩
      · left; rw [h1, h2]
      · right; exact ⟨t, m, by rw [hi]; exact List.mem_cons_self _ _, by rw [h1, he]⟩
    · right; exact ⟨t, m, List.mem_cons_of_mem _ hm, he⟩

theorem runFrom_fst_append (cfg : Config) (a b : List Input) : ∀ s : AggState,
    (runFrom cfg s (a ++ b)).1 = (runFrom cfg (runFrom cfg s a).1 b).1 := by
  induction a with
  | nil => intro s; rfl
  | cons i rest ih => intro s; exact ih (step cfg s i).1

theorem run_eventually_closed (cfg : Config) (inputs : List Input) (T : Nat)
    (hmem : Input.tick T ∈ inputs)
    (hconn : cfg.start + cfg.connect < T)
    (hidle : ∀ t m, Input.frame t m ∈ inputs → t + cfg.idle < T) :
    (run cfg inputs).1.closed = true := by
  obtain ⟨l₁, l₂, rfl⟩ := List.append_of_mem hmem
  rw [run, runFrom_fst_append]
  have hcons : (runFrom cfg (runFrom cfg (initState cfg) l₁).1 (Input.tick T :: l₂)).1 =
      (runFrom cfg (step cfg (runFrom cfg (initState cfg) l₁).1 (Input.tick T)).1 l₂).1 := rfl
  rw [hcons]
  by_cases hc : (runFrom cfg (initState cfg) l₁).1.closed
  · rw [step_closed_noop cfg _ _ hc, runFrom_closed cfg l₂ _ hc]
    exact hc
  · have hc' : (runFrom cfg (initState cfg) l₁).1.closed = false := by simpa using hc
    have hfire : (step cfg (runFrom cfg (initState cfg) l₁).1 (Input.tick T)).1.closed = true := by
      rcases runFrom_lastMessage cfg l₁ (initState cfg) with h0 | ⟨t, m, hm, he⟩
      · have hz : (runFrom cfg (initState cfg) l₁).1.lastMessage = 0 := by
          rw [h0]; rfl
        simp [step, hc', hz, hconn, _timeout]
      · have ht : t + cfg.idle < T :=
          hidle t m (List.mem_append_left _ hm)
        by_cases hz : (runFrom cfg (initState cfg) l₁).1.lastMessage = 0
        · simp [step, hc', hz, hconn, _timeout]
        · rw [he] at hz
          simp [step, hc', hz, he, ht, _timeout]
    rw [runFrom_closed cfg l₂ _ hfire]
    exact hfire

theorem run_shape (cfg : Config) (inputs : List Input) :
    (((run cfg inputs).1.closed = false
        ∧ termCount (run cfg inputs).2 = 0 ∧ tdCount (run cfg inputs).2 = 0)
   ∨ ((run cfg inputs).1.closed = true
        ∧ ∃ pre t, (run cfg inputs).2 = pre ++ [Item.td, Item.ev t]
            ∧ isTerminalEv t = true ∧ termCount pre = 0 ∧ tdCount pre = 0)) :=
  runFrom_shape cfg inputs (initState cfg) rfl

/-- Claim C1: for every requester conversation run, at most one teardown
marker and at most one terminal event appear in the trace; when a terminal
event appears, the trace ends with the teardown marker immediately
followed by that terminal event (so teardown runs before the terminal
event and no event follows it); any frame arriving while `closed` is set
drives no state change and emits nothing; and when the inputs contain a
tick later than the connect deadline and later than every frame time plus
the idle timeout, exactly one terminal event is emitted. -/
theorem requester_single_terminal (cfg : Config) (inputs : List Input) :
    (termCount (run cfg inputs).2 ≤ 1 ∧ tdCount (run cfg inputs).2 ≤ 1)
  ∧ ((termCount (run cfg inputs).2 = 0 ∧ tdCount (run cfg inputs).2 = 0)
      ∨ ∃ pre t, (run cfg inputs).2 = pre ++ [Item.td, Item.ev t] ∧ isTerminalEv t = true
          ∧ termCount pre = 0 ∧ tdCount pre = 0)
  ∧ (∀ (s : AggState) (t : Nat) (m : WireMsg), s.closed = true →
      step cfg s (Input.frame t m) = (s, []))
  ∧ (∀ T : Nat, Input.tick T ∈ inputs → cfg.start + cfg.connect < T →
      (∀ t m, Input.frame t m ∈ inputs → t + cfg.idle < T) →
      termCount (run cfg inputs).2 = 1) := by
  refine ⟨?_, ?_, ?_, ?_⟩
  · rcases run_shape cfg inputs with ⟨_, ht, hd⟩ | ⟨_, pre, t0, heq, hterm, hp1, hp2⟩
    · rw [ht, hd]; exact ⟨Nat.zero_le 1, Nat.zero_le 1⟩
    · rw [heq]
      rw [(counts_append_pair pre t0 hterm).1, (counts_append_pair pre t0 hterm).2, hp1, hp2]
      exact ⟨le_refl 1, le_refl 1⟩
  · rcases run_shape cfg inputs with ⟨_, ht, hd⟩ | ⟨_, pre, t0, heq, hterm, hp1, hp2⟩
    · exact Or.inl ⟨ht, hd⟩
    · exact Or.inr ⟨pre, t0, heq, hterm, hp1, hp2⟩
  · intro s t m h
    exact step_closed_noop cfg s _ h
  · intro T hmem hconn hidle
    have hcl := run_eventually_closed cfg inputs T hmem hconn hidle
    rcases run_shape cfg inputs with ⟨hc, _, _⟩ | ⟨_, pre, t0, heq, hterm, hp1, hp2⟩
    · rw [hc] at hcl; exact absurd hcl (by simp)
    · rw [heq, (counts_append_pair pre t0 hterm).1, hp1]

/-- Claim C1 witness: a frame arriving at a concrete closed state is a
no-op, and a concrete run ending in a sufficiently late tick emits exactly
one terminal event. -/
theorem requester_single_terminal_witness :
    step ⟨0, 10, 10, ["h"]⟩ ⟨true, [], [], 3, []⟩ (Input.frame 5 ⟨"ack", "h", ""⟩) =
      (⟨true, [], [], 3, []⟩, [])
  ∧ termCount (run ⟨0, 10, 10, ["h"]⟩ [Input.tick 20]).2 = 1 :=
  ⟨(requester_single_terminal ⟨0, 10, 10, ["h"]⟩ []).2.2.1 ⟨true, [], [], 3, []⟩ 5
      ⟨"ack", "h", ""⟩ rfl,
   (requester_single_terminal ⟨0, 10, 10, ["h"]⟩ [Input.tick 20]).2.2.2 20
      (List.mem_cons_self _ _) (by decide) (by intro t m hm; simp at hm)⟩

theorem mem_insertKey (l : List String) (a h : String) :
    h ∈ insertKey l a ↔ h ∈ l ∨ h = a := by
  unfold insertKey
  split_ifs with hal
  · constructor
    · exact Or.inl
    · rintro (hh | rfl)
      · exact hh
      · exact hal
  · simp [List.mem_append]

theorem mem_removeKey (l : List String) (a h : String) :
    h ∈ removeKey l a ↔ h ∈ l ∧ h ≠ a := by
  simp [removeKey, List.mem_filter, bne_iff_ne]

theorem expectsAfter_append (b : Bool) (d r : List WireMsg) (h : String) :
    expectsAfter b (d ++ r) h = expectsAfter (expectsAfter b d h) r h := by
  simp [expectsAfter, List.foldl_append]

theorem receiveEnd_expecting (s : AggState) (a : String) :
    (_receiveEnd s a).1.expecting = removeKey s.expecting a := by
  simp only [_receiveEnd]
  split_ifs <;> rfl

theorem step_log (cfg : Config) (s : AggState) (i : Input) :
    (step cfg s i).1.log = s.log ++ frameOf s i := by
  cases i with
  | tick t => rw [(step_tick_fst cfg s t).2.1]; simp [frameOf]
  | frame t m =>
    by_cases hc : s.closed
    · simp [step, hc, frameOf]
    · have hc' : s.closed = false := by simpa using hc
      simp only [step, hc', Bool.false_eq_true, if_false, frameOf]
      split_ifs <;>
        simp [_receiveAck, _receiveData, _receiveEnd, apply_ite]

theorem step_expect (cfg : Config) (s : AggState) (i : Input) (h : String) :
    decide (h ∈ (step cfg s i).1.expecting) =
      expectsAfter (decide (h ∈ s.expecting)) (frameOf s i) h := by
  cases i with
  | tick t => rw [(step_tick_fst cfg s t).1]; rfl
  | frame t m =>
    by_cases hc : s.closed
    · simp [step, hc, frameOf, expectsAfter]
    · have hc' : s.closed = false := by simpa using hc
      simp only [step, hc', Bool.false_eq_true, if_false, frameOf, if_true]
      by_cases h1 : m.type = "ack"
      · rw [if_pos h1]
        simp only [_receiveAck]
        by_cases hh : m.host = h
        · subst hh
          simp [expectsAfter, h1, mem_insertKey]
        · simp only [expectsAfter, List.foldl_cons, List.foldl_nil, if_neg hh]
          rw [decide_eq_decide, mem_insertKey]
          constructor
          · rintro (hl | rfl)
            · exact hl
            · exact absurd rfl hh
          · exact Or.inl
      · by_cases h2 : m.type = "data"
        · rw [if_neg h1, if_pos h2]
          simp only [_receiveData]
          by_cases hh : m.host = h
          · subst hh
            simp [expectsAfter, h2, mem_insertKey]
          · simp only [expectsAfter, List.foldl_cons, List.foldl_nil, if_neg hh]
            rw [decide_eq_decide, mem_insertKey]
            constructor
            · rintro (hl | rfl)
              · exact hl
              · exact absurd rfl hh
            · exact Or.inl
        · by_cases h3 : m.type = "end"
          · rw [if_neg h1, if_neg h2, if_pos h3]
            rw [receiveEnd_expecting]
            by_cases hh : m.host = h
            · subst hh
              simp [expectsAfter, h1, h2, h3, mem_removeKey]
            · simp only [expectsAfter, List.foldl_cons, List.foldl_nil, if_neg hh]
              rw [decide_eq_decide, mem_removeKey]
              constructor
              · exact fun hp => hp.1
              · intro hl
                exact ⟨hl, fun e => hh e.symm⟩
          · rw [if_neg h1, if_neg h2, if_neg h3]
            simp [expectsAfter, h1, h2, h3]

theorem runFrom_log (cfg : Config) (inputs : List Input) : ∀ s : AggState,
    (runFrom cfg s inputs).1.log = s.log ++ processedNew cfg s inputs := by
  induction inputs with
  | nil => intro s; simp [runFrom, processedNew]
  | cons i rest ih =>
    intro s
    have hrw1 : (runFrom cfg s (i :: rest)).1 = (runFrom cfg (step cfg s i).1 rest).1 := rfl
    rw [hrw1, ih (step cfg s i).1, step_log, processedNew, List.append_assoc]

theorem runFrom_expect (cfg : Config) (inputs : List Input) (h : String) : ∀ s : AggState,
    decide (h ∈ (runFrom cfg s inputs).1.expecting) =
      expectsAfter (decide (h ∈ s.expecting)) (processedNew cfg s inputs) h := by
  induction inputs with
  | nil => intro s; rfl
  | cons i rest ih =>
    intro s
    have hrw1 : (runFrom cfg s (i :: rest)).1 = (runFrom cfg (step cfg s i).1 rest).1 := rfl
    rw [hrw1, ih (step cfg s i).1, processedNew, expectsAfter_append, step_expect]

/-- Claim C8 (amended): the requester's processed-frame record equals the
frames of the input trace handled while the conversation was open, and a
host `h` belongs to the expecting set at any point of the run iff the last
processed `ack`/`data`/`end` frame from `h` was an `ack` or `data`
(defaulting, when no such frame was processed, to membership in the
initial expect set); in particular a host that acks without being
originally expected is added and awaited, but a host whose `end` frame was
followed by a later `ack` or `data` frame from the same host is awaited
again even though an `end` from it was processed before teardown. -/
theorem expecting_membership_characterisation (cfg : Config) (inputs : List Input) (h : String) :
    (run cfg inputs).1.log = processedNew cfg (initState cfg) inputs
  ∧ ((h ∈ (run cfg inputs).1.expecting) ↔
      expectsAfter (decide (h ∈ (initState cfg).expecting)) ((run cfg inputs).1.log) h = true) := by
  have hl : (run cfg inputs).1.log = processedNew cfg (initState cfg) inputs := by
    have := runFrom_log cfg inputs (initState cfg)
    simpa [run, initState] using this
  refine ⟨hl, ?_⟩
  rw [hl, ← runFrom_expect cfg inputs h (initState cfg)]
  exact decide_eq_true_iff.symm

/-- Claim C8 counterexample: with initial expect `["h", "k"]` and frames
ack(h), end(h), ack(h), host `h` is in the final expecting set although an
`end` frame from `h` was processed before teardown, refuting the claimed
"if and only if ... and no end frame from H was processed" overall. -/
theorem expecting_membership_counterexample :
    ("h" ∈ (run cfg8 inputs8).1.expecting)
  ∧ endProcessedFrom (run cfg8 inputs8).1.log "h" = true
  ∧ ¬(("h" ∈ (run cfg8 inputs8).1.expecting) ↔
      (("h" ∈ (initState cfg8).expecting
          ∨ addedByAckData (run cfg8 inputs8).1.log "h" = true)
        ∧ endProcessedFrom (run cfg8 inputs8).1.log "h" = false)) := by
  refine ⟨by decide, by decide, ?_⟩
  intro hiff
  have h1 : ("h" ∈ (run cfg8 inputs8).1.expecting) := by decide
  have h2 := (hiff.mp h1).2
  exact absurd h2 (by decide)
end Cowboy
